import Mathlib

/-!
Verification of the Smartisan sdm660-common `KeyHandler` (dual-key screenshot
gesture detector).  The definitions below are a shallow embedding of the Java
class `org.mokee.settings.device.smartisan.KeyHandler`: instance fields become
a `KHState` record, every mutation is explicit state passing, and the two
side-effecting capabilities (`injectKey`, `takeScreenshot`) are recorded as an
ordered list of `Effect`s.  The main-looper timer (`postDelayed` /
`removeCallbacks` of the `triggerPartialScreenshot` runnable) is modelled as a
queue of absolute deadlines inside the state, fired by an explicit scheduler.
-/

namespace SmartisanKeyHandler

/-- Action of a raw key event (`KeyEvent.getAction()`): `ACTION_DOWN`,
`ACTION_UP`, or any other action code (e.g. `ACTION_MULTIPLE`). -/
inductive KeyAction where
  | down
  | up
  | other
deriving DecidableEq, Repr

/-- Fields of an incoming `android.view.KeyEvent` that the handler reads. -/
structure KeyEvent where
  deviceId : Int
  scanCode : Int
  keyCode : Int
  action : KeyAction
deriving DecidableEq, Repr

/-- Observable side effect emitted by the handler.
`inject code act canceled` models `injectKey(code, act, flags)` where
`canceled = true` iff `flags = KeyEvent.FLAG_CANCELED`;
`screenshot true` models `takeScreenshot(true)` (selected region / partial),
`screenshot false` the full-screen variant. -/
inductive Effect where
  | inject (code : Int) (act : KeyAction) (canceled : Bool)
  | screenshot (partialShot : Bool)
deriving DecidableEq, Repr

/-- Instance state of the `KeyHandler` object.  `pendingTimers` is the list of
absolute deadlines of currently queued `triggerPartialScreenshot` posts on the
main-looper handler (in posting order). -/
structure KHState where
  trustedShortcutsDeviceId : Int
  trustedPowerDeviceId : Int
  shortcutsKeyPressed : Bool
  powerKeyPressed : Bool
  shortcutsScanCode : Int
  shortcutsKeyCode : Int
  powerScanCode : Int
  powerKeyCode : Int
  pendingTimers : List Nat
deriving DecidableEq, Repr

/-- Constant `TRUSTED_SHORTCUTS_DEVICE_NAME` (line 46 of the source). -/
def TRUSTED_SHORTCUTS_DEVICE_NAME : String := "gpio-keys"

/-- Constant `TRUSTED_POWER_DEVICE_NAME` (line 47 of the source). -/
def TRUSTED_POWER_DEVICE_NAME : String := "qpnp_pon"

/-- Value of a nonempty all-decimal-digit character list, `none` if any
character is not a digit. -/
def digitsValue : List Char → Nat → Option Nat
  | [], acc => some acc
  | c :: cs, acc =>
    if c.isDigit then digitsValue cs (acc * 10 + (c.toNat - 48)) else none

/-- Semantics of `Integer.parseInt` applied to the result of `FileUtils.readOneLine`
(`none` models a `null` line, e.g. an unreadable file): optional leading sign,
at least one decimal digit, value within the 32-bit `int` range; any failure
(`null`, empty, stray character, overflow) raises `NumberFormatException`,
modelled as `none`. -/
def parseJavaInt : Option String → Option Int
  | none => none
  | some str =>
    match str.data with
    | [] => none
    | c :: cs =>
      if c = '-' then
        match cs with
        | [] => none
        | _ => (digitsValue cs 0).bind fun n =>
            if n ≤ 2147483648 then some (-(n : Int)) else none
      else if c = '+' then
        match cs with
        | [] => none
        | _ => (digitsValue cs 0).bind fun n =>
            if n ≤ 2147483647 then some ((n : Int)) else none
      else
        (digitsValue (c :: cs) 0).bind fun n =>
          if n ≤ 2147483647 then some ((n : Int)) else none

/-- The field initializers of the class: everything zero / false / empty. -/
def emptyState : KHState :=
  { trustedShortcutsDeviceId := 0
    trustedPowerDeviceId := 0
    shortcutsKeyPressed := false
    powerKeyPressed := false
    shortcutsScanCode := 0
    shortcutsKeyCode := 0
    powerScanCode := 0
    powerKeyCode := 0
    pendingTimers := [] }

/-- The constructor `KeyHandler(Context)` (lines 82-92): both scan-code reads
and parses sit in one `try` block whose `NumberFormatException` is ignored, so
a failing shortcuts parse aborts before the power assignment. -/
def initKeyHandler (shortcutsFile powerFile : Option String) : KHState :=
  match parseJavaInt shortcutsFile with
  | none => emptyState
  | some sc =>
    match parseJavaInt powerFile with
    | none => { emptyState with shortcutsScanCode := sc }
    | some pc => { emptyState with shortcutsScanCode := sc, powerScanCode := pc }

/-- Trust resolution for the shortcuts role (lines 103-114): if
`trustedShortcutsDeviceId` is the `0` sentinel, a device whose looked-up name
equals `TRUSTED_SHORTCUTS_DEVICE_NAME` binds the field to its id (a `null`
name never matches); otherwise the event's device id must equal the bound
value.  Returns `none` on rejection (the caller then returns `false` with the
state unchanged). -/
def trustShortcuts (nameOf : Int → Option String) (event : KeyEvent) (s : KHState) :
    Option KHState :=
  if s.trustedShortcutsDeviceId = 0 then
    if nameOf event.deviceId = some TRUSTED_SHORTCUTS_DEVICE_NAME then
      some { s with trustedShortcutsDeviceId := event.deviceId }
    else none
  else
    if s.trustedShortcutsDeviceId = event.deviceId then some s else none

/-- Trust resolution for the power role (lines 150-161), symmetric to
`trustShortcuts`. -/
def trustPower (nameOf : Int → Option String) (event : KeyEvent) (s : KHState) :
    Option KHState :=
  if s.trustedPowerDeviceId = 0 then
    if nameOf event.deviceId = some TRUSTED_POWER_DEVICE_NAME then
      some { s with trustedPowerDeviceId := event.deviceId }
    else none
  else
    if s.trustedPowerDeviceId = event.deviceId then some s else none

/-- The `switch (event.getAction())` of `handleShortcutsKeyEvent`
(lines 122-144), entered after trust and scan-code checks succeeded and
`shortcutsKeyCode` was overwritten with the event's key code.  `now` is the
uptime at which the event is processed and `L` the long-press timeout used by
`postDelayed`. -/
def shortcutsAction (interactive : Bool) (now L : Nat) (act : KeyAction) (s : KHState) :
    Bool × KHState × List Effect :=
  match act with
  | KeyAction.down =>
    if s.powerKeyPressed then
      -- lines 124-126: inject a canceled up for the power key and arm the timer
      (true,
       (fun s1 => if interactive then { s1 with shortcutsKeyPressed := true } else s1)
         { s with pendingTimers := s.pendingTimers ++ [now + L] },
       [Effect.inject s.powerKeyCode KeyAction.up true])
    else
      -- line 128: mirror the suppressed press as a genuine down
      (true,
       (fun s1 => if interactive then { s1 with shortcutsKeyPressed := true } else s1) s,
       [Effect.inject s.shortcutsKeyCode KeyAction.down false])
  | KeyAction.up =>
    if s.powerKeyPressed then
      -- lines 135-137: resolve the combo as a full screenshot
      (true,
       { s with powerKeyPressed := false, pendingTimers := [],
                shortcutsKeyPressed := false },
       [Effect.screenshot false])
    else
      -- line 139: genuine pass-through up
      (true,
       { s with pendingTimers := [], shortcutsKeyPressed := false },
       [Effect.inject s.shortcutsKeyCode KeyAction.up false])
  | KeyAction.other => (true, s, [])

/-- The `switch` of `handlePowerKeyEvent` (lines 169-191), symmetric to
`shortcutsAction` with the two roles exchanged. -/
def powerAction (interactive : Bool) (now L : Nat) (act : KeyAction) (s : KHState) :
    Bool × KHState × List Effect :=
  match act with
  | KeyAction.down =>
    if s.shortcutsKeyPressed then
      (true,
       (fun s1 => if interactive then { s1 with powerKeyPressed := true } else s1)
         { s with pendingTimers := s.pendingTimers ++ [now + L] },
       [Effect.inject s.shortcutsKeyCode KeyAction.up true])
    else
      (true,
       (fun s1 => if interactive then { s1 with powerKeyPressed := true } else s1) s,
       [Effect.inject s.powerKeyCode KeyAction.down false])
  | KeyAction.up =>
    if s.shortcutsKeyPressed then
      (true,
       { s with shortcutsKeyPressed := false, pendingTimers := [],
                powerKeyPressed := false },
       [Effect.screenshot false])
    else
      (true,
       { s with pendingTimers := [], powerKeyPressed := false },
       [Effect.inject s.powerKeyCode KeyAction.up false])
  | KeyAction.other => (true, s, [])

/-- Java `handleShortcutsKeyEvent` (lines 102-147).  On trust rejection the state
is returned unchanged; on a scan-code mismatch the state still carries a trust
binding made moments earlier (the binding is performed before the scan-code
comparison). -/
def handleShortcutsKeyEvent (nameOf : Int → Option String) (interactive : Bool)
    (now L : Nat) (event : KeyEvent) (s : KHState) : Bool × KHState × List Effect :=
  match trustShortcuts nameOf event s with
  | none => (false, s, [])
  | some s1 =>
    if event.scanCode = s1.shortcutsScanCode then
      shortcutsAction interactive now L event.action
        { s1 with shortcutsKeyCode := event.keyCode }
    else (false, s1, [])

/-- Java `handlePowerKeyEvent` (lines 149-194). -/
def handlePowerKeyEvent (nameOf : Int → Option String) (interactive : Bool)
    (now L : Nat) (event : KeyEvent) (s : KHState) : Bool × KHState × List Effect :=
  match trustPower nameOf event s with
  | none => (false, s, [])
  | some s1 =>
    if event.scanCode = s1.powerScanCode then
      powerAction interactive now L event.action
        { s1 with powerKeyCode := event.keyCode }
    else (false, s1, [])

/-- Java `handleKeyEvent` (lines 94-100): shortcuts role first, power role only if
the shortcuts role returned `false` (short-circuit `||`), and any mutation a
rejecting role handler already made persists.  `none` models returning `null`
(consumed); `some event` is pass-through. -/
def handleKeyEvent (nameOf : Int → Option String) (interactive : Bool)
    (now L : Nat) (event : KeyEvent) (s : KHState) :
    Option KeyEvent × KHState × List Effect :=
  let r1 := handleShortcutsKeyEvent nameOf interactive now L event s
  if r1.1 then (none, r1.2.1, r1.2.2)
  else
    let r2 := handlePowerKeyEvent nameOf interactive now L event r1.2.1
    if r2.1 then (none, r2.2.1, r2.2.2)
    else (some event, r2.2.1, r2.2.2)

/-- Body of the `triggerPartialScreenshot` runnable (lines 69-80): acts only
if both pressed flags are still set; effect order is the screenshot request,
then the canceled up for the shortcuts key, then for the power key. -/
def triggerPartialScreenshot (s : KHState) : KHState × List Effect :=
  if s.shortcutsKeyPressed && s.powerKeyPressed then
    ({ s with shortcutsKeyPressed := false, powerKeyPressed := false },
     [Effect.screenshot true,
      Effect.inject s.shortcutsKeyCode KeyAction.up true,
      Effect.inject s.powerKeyCode KeyAction.up true])
  else (s, [])

/-- Run the timer body `n` times in sequence (the looper dequeues due posts
one by one; the body itself never re-posts). -/
def fireMany : Nat → KHState → KHState × List Effect
  | 0, s => (s, [])
  | n + 1, s =>
    let r1 := triggerPartialScreenshot s
    let r2 := fireMany n r1.1
    (r2.1, r1.2 ++ r2.2)

/-- Deliver every queued `triggerPartialScreenshot` post whose deadline is at
most `t` (the main looper dispatches due messages before handling anything
enqueued for a later uptime). -/
def fireDue (t : Nat) (s : KHState) : KHState × List Effect :=
  fireMany ((s.pendingTimers.filter fun d => decide (d ≤ t)).length)
    { s with pendingTimers := s.pendingTimers.filter fun d => !decide (d ≤ t) }

/-- An incoming event together with the uptime at which the looper delivers it
and the `PowerManager.isInteractive()` answer at that moment. -/
structure TimedEvent where
  time : Nat
  interactive : Bool
  event : KeyEvent
deriving DecidableEq, Repr

/-- Serialized main-looper execution: before each `handleKeyEvent` call all
timer posts due by that event's time fire, and after the last event every
post due by `tEnd` fires.  Returns the final state and the concatenated
effect stream. -/
def runTimed (nameOf : Int → Option String) (L : Nat) :
    KHState → List TimedEvent → Nat → KHState × List Effect
  | s, [], tEnd => fireDue tEnd s
  | s, te :: rest, tEnd =>
    let r1 := fireDue te.time s
    let r2 := handleKeyEvent nameOf te.interactive te.time L te.event r1.1
    let r3 := runTimed nameOf L r2.2.1 rest tEnd
    (r3.1, r1.2 ++ r2.2.2 ++ r3.2)

/-- Plain serialized sequence of `handleKeyEvent` calls with no timer firing
in between (all events delivered before any pending deadline).  Also records
each call's return value (`none` = consumed, `some e` = passed through). -/
def runEvents (nameOf : Int → Option String) (L : Nat) :
    KHState → List TimedEvent → KHState × List Effect × List (Option KeyEvent)
  | s, [] => (s, [], [])
  | s, te :: rest =>
    let r := handleKeyEvent nameOf te.interactive te.time L te.event s
    let rs := runEvents nameOf L r.2.1 rest
    (rs.1, r.2.2 ++ rs.2.1, r.1 :: rs.2.2)

/-- A key code has an outstanding genuine down in an effect stream: a
non-canceled down injection for it not followed by any up injection for it
(a canceled down never arises from this handler and is ignored). -/
def outstandingGenuineDown (c : Int) (l : List Effect) : Bool :=
  l.foldl
    (fun b e =>
      match e with
      | Effect.inject c2 KeyAction.down canceled =>
        if c2 = c then (if canceled then b else true) else b
      | Effect.inject c2 KeyAction.up _ => if c2 = c then false else b
      | _ => b)
    false

/-- Number of screenshot requests of the given variant in an effect stream. -/
def screenshotCount (partialShot : Bool) (l : List Effect) : Nat :=
  (l.filter fun e =>
    match e with
    | Effect.screenshot b => b = partialShot
    | _ => false).length

/-- A device is untrusted for both roles in a given state: its looked-up name
matches neither expected hardware name and it is not the device either role is
bound to. -/
def Untrusted (nameOf : Int → Option String) (s : KHState) (event : KeyEvent) : Prop :=
  nameOf event.deviceId ≠ some TRUSTED_SHORTCUTS_DEVICE_NAME ∧
  nameOf event.deviceId ≠ some TRUSTED_POWER_DEVICE_NAME ∧
  (s.trustedShortcutsDeviceId = 0 ∨ event.deviceId ≠ s.trustedShortcutsDeviceId) ∧
  (s.trustedPowerDeviceId = 0 ∨ event.deviceId ≠ s.trustedPowerDeviceId)

instance (nameOf : Int → Option String) (s : KHState) (event : KeyEvent) :
    Decidable (Untrusted nameOf s event) := by
  unfold Untrusted; infer_instance

/-! Concrete fixtures used by counterexamples and witnesses: a device-name
registry with the shortcuts hardware as device 1 and the power hardware as
device 2, a handler state already bound to those devices with scan codes
250 (shortcuts) and 116 (power), and events carrying key codes 254 and 26. -/

/-- Registry: device 1 is the shortcuts hardware, device 2 the power one. -/
def nmTrusted : Int → Option String := fun d =>
  if d = 1 then some TRUSTED_SHORTCUTS_DEVICE_NAME
  else if d = 2 then some TRUSTED_POWER_DEVICE_NAME
  else none

/-- Idle state with both roles bound and configured. -/
def sBound : KHState :=
  { emptyState with trustedShortcutsDeviceId := 1, trustedPowerDeviceId := 2,
                    shortcutsScanCode := 250, powerScanCode := 116 }

/-- Shortcuts-key event with the given action. -/
def evS (a : KeyAction) : KeyEvent :=
  { deviceId := 1, scanCode := 250, keyCode := 254, action := a }

/-- Power-key event with the given action. -/
def evP (a : KeyAction) : KeyEvent :=
  { deviceId := 2, scanCode := 116, keyCode := 26, action := a }

/-- Registry in which both device 0 and device 7 report the shortcuts
hardware name. -/
def nmZero : Int → Option String := fun d =>
  if d = 0 ∨ d = 7 then some TRUSTED_SHORTCUTS_DEVICE_NAME else none

/-- Unbound state with both scan codes configured. -/
def sUnbound : KHState :=
  { emptyState with shortcutsScanCode := 250, powerScanCode := 116 }

/-! Helper lemmas shared by several developments below. -/

/-- Successful shortcuts trust resolution either leaves the state unchanged
(already-bound case) or only binds `trustedShortcutsDeviceId`. -/
theorem trustShortcuts_some (nameOf : Int → Option String) (e : KeyEvent)
    (s s1 : KHState) (h : trustShortcuts nameOf e s = some s1) :
    s1 = s ∨ s1 = { s with trustedShortcutsDeviceId := e.deviceId } := by
  unfold trustShortcuts at h
  split at h
  · split at h
    · exact Or.inr (Option.some.inj h).symm
    · exact absurd h (by simp)
  · split at h
    · exact Or.inl (Option.some.inj h).symm
    · exact absurd h (by simp)

/-- Successful power trust resolution either leaves the state unchanged or
only binds `trustedPowerDeviceId`. -/
theorem trustPower_some (nameOf : Int → Option String) (e : KeyEvent)
    (s s1 : KHState) (h : trustPower nameOf e s = some s1) :
    s1 = s ∨ s1 = { s with trustedPowerDeviceId := e.deviceId } := by
  unfold trustPower at h
  split at h
  · split at h
    · exact Or.inr (Option.some.inj h).symm
    · exact absurd h (by simp)
  · split at h
    · exact Or.inl (Option.some.inj h).symm
    · exact absurd h (by simp)

/-- Every field other than `trustedShortcutsDeviceId` survives shortcuts
trust resolution. -/
theorem trustShortcuts_fields (nameOf : Int → Option String) (e : KeyEvent)
    (s s1 : KHState) (h : trustShortcuts nameOf e s = some s1) :
    s1.trustedPowerDeviceId = s.trustedPowerDeviceId ∧
    s1.shortcutsKeyPressed = s.shortcutsKeyPressed ∧
    s1.powerKeyPressed = s.powerKeyPressed ∧
    s1.shortcutsScanCode = s.shortcutsScanCode ∧
    s1.shortcutsKeyCode = s.shortcutsKeyCode ∧
    s1.powerScanCode = s.powerScanCode ∧
    s1.powerKeyCode = s.powerKeyCode ∧
    s1.pendingTimers = s.pendingTimers := by
  rcases trustShortcuts_some nameOf e s s1 h with h1 | h1 <;> subst h1 <;> simp

/-- Every field other than `trustedPowerDeviceId` survives power trust
resolution. -/
theorem trustPower_fields (nameOf : Int → Option String) (e : KeyEvent)
    (s s1 : KHState) (h : trustPower nameOf e s = some s1) :
    s1.trustedShortcutsDeviceId = s.trustedShortcutsDeviceId ∧
    s1.shortcutsKeyPressed = s.shortcutsKeyPressed ∧
    s1.powerKeyPressed = s.powerKeyPressed ∧
    s1.shortcutsScanCode = s.shortcutsScanCode ∧
    s1.shortcutsKeyCode = s.shortcutsKeyCode ∧
    s1.powerScanCode = s.powerScanCode ∧
    s1.powerKeyCode = s.powerKeyCode ∧
    s1.pendingTimers = s.pendingTimers := by
  rcases trustPower_some nameOf e s s1 h with h1 | h1 <;> subst h1 <;> simp

/-- An accepted shortcuts event factors through trust resolution, a matching
scan code, the key-code overwrite and the action switch. -/
theorem handleShortcuts_accepted (nameOf : Int → Option String) (i : Bool)
    (now L : Nat) (e : KeyEvent) (s : KHState)
    (h : (handleShortcutsKeyEvent nameOf i now L e s).1 = true) :
    ∃ s1, trustShortcuts nameOf e s = some s1 ∧ e.scanCode = s1.shortcutsScanCode ∧
      handleShortcutsKeyEvent nameOf i now L e s =
        shortcutsAction i now L e.action { s1 with shortcutsKeyCode := e.keyCode } := by
  cases htr : trustShortcuts nameOf e s with
  | none =>
    exfalso
    unfold handleShortcutsKeyEvent at h
    rw [htr] at h
    simp at h
  | some s1 =>
    by_cases hsc : e.scanCode = s1.shortcutsScanCode
    · refine ⟨s1, rfl, hsc, ?_⟩
      unfold handleShortcutsKeyEvent
      simp [htr, hsc]
    · exfalso
      unfold handleShortcutsKeyEvent at h
      simp [htr, hsc] at h

/-- An accepted power event factors the same way. -/
theorem handlePower_accepted (nameOf : Int → Option String) (i : Bool)
    (now L : Nat) (e : KeyEvent) (s : KHState)
    (h : (handlePowerKeyEvent nameOf i now L e s).1 = true) :
    ∃ s1, trustPower nameOf e s = some s1 ∧ e.scanCode = s1.powerScanCode ∧
      handlePowerKeyEvent nameOf i now L e s =
        powerAction i now L e.action { s1 with powerKeyCode := e.keyCode } := by
  cases htr : trustPower nameOf e s with
  | none =>
    exfalso
    unfold handlePowerKeyEvent at h
    rw [htr] at h
    simp at h
  | some s1 =>
    by_cases hsc : e.scanCode = s1.powerScanCode
    · refine ⟨s1, rfl, hsc, ?_⟩
      unfold handlePowerKeyEvent
      simp [htr, hsc]
    · exfalso
      unfold handlePowerKeyEvent at h
      simp [htr, hsc] at h

/-- C1 counterexample.  The claim says that after any sequence of `handle()`
calls at most one deferred partial-screenshot timer is pending, arming
implicitly canceling any prior instance.  But `postDelayed` (lines 126 and
173) is never preceded by `removeCallbacks`, so the accepted sequence
Power-down, Shortcuts-down, Shortcuts-down (an auto-repeat down-edge, all
while interactive and the power flag still set) arms twice with no
intervening cancel and leaves two live timer instances with distinct
deadlines. -/
theorem c1_timer_stacking_cex :
    (runEvents nmTrusted 500 sBound
      [⟨0, true, evP KeyAction.down⟩, ⟨10, true, evS KeyAction.down⟩,
       ⟨20, true, evS KeyAction.down⟩]).1.pendingTimers = [510, 520] ∧
    ¬ (runEvents nmTrusted 500 sBound
      [⟨0, true, evP KeyAction.down⟩, ⟨10, true, evS KeyAction.down⟩,
       ⟨20, true, evS KeyAction.down⟩]).1.pendingTimers.length ≤ 1 := by
  decide

/-- C2 counterexample.  The claim says a role whose startup file holds a
valid decimal integer gets its scan code regardless of the other role's file.
But both parses share one `try` block (lines 87-91): a malformed shortcuts
file aborts before the power assignment, so with shortcuts file `"x"` and a
perfectly valid power file `"114"` the power scan code stays 0, not 114. -/
theorem c2_shared_try_cex :
    parseJavaInt (some "114") = some 114 ∧
    (initKeyHandler (some "x") (some "114")).powerScanCode = 0 ∧
    (initKeyHandler (some "x") (some "114")).powerScanCode ≠ 114 := by
  decide

/-- C3 counterexample.  The claim says an accepted up-edge with no matching
prior down-edge for its role triggers no screenshot and nothing beyond the
role's own pass-through up-injection.  But after a single Power down-edge
(so the history contains no Shortcuts down-edge at all), an accepted
Shortcuts up-edge finds `powerKeyPressed` true and takes a full screenshot
(line 136) instead of injecting its own up. -/
theorem c3_unmatched_up_cex :
    (runEvents nmTrusted 500 sBound
      [⟨0, true, evP KeyAction.down⟩, ⟨10, true, evS KeyAction.up⟩]).2.1 =
      [Effect.inject 26 KeyAction.down false, Effect.screenshot false] ∧
    screenshotCount false
      (runEvents nmTrusted 500 sBound
        [⟨0, true, evP KeyAction.down⟩, ⟨10, true, evS KeyAction.up⟩]).2.1 = 1 := by
  decide

/-- C4 counterexample.  The claim says the injected stream never holds two
simultaneously outstanding genuine down presses for the two learned key
codes.  But a Power down-edge processed while non-interactive injects a
genuine down (line 175) without setting `powerKeyPressed` (line 177), so a
following interactive Shortcuts down-edge sees an idle peer and injects a
second genuine down: both learned key codes (26 and 254) are then
outstanding genuine downs at once. -/
theorem c4_mutual_exclusion_cex :
    outstandingGenuineDown 26
      (runEvents nmTrusted 500 sBound
        [⟨0, false, evP KeyAction.down⟩, ⟨10, true, evS KeyAction.down⟩]).2.1 = true ∧
    outstandingGenuineDown 254
      (runEvents nmTrusted 500 sBound
        [⟨0, false, evP KeyAction.down⟩, ⟨10, true, evS KeyAction.down⟩]).2.1 = true ∧
    (runEvents nmTrusted 500 sBound
      [⟨0, false, evP KeyAction.down⟩, ⟨10, true, evS KeyAction.down⟩]).1.powerKeyCode = 26 ∧
    (runEvents nmTrusted 500 sBound
      [⟨0, false, evP KeyAction.down⟩,
       ⟨10, true, evS KeyAction.down⟩]).1.shortcutsKeyCode = 254 ∧
    (26 : Int) ≠ 254 := by
  decide

/-- C5 counterexample.  The claim says that once a role's `trustedDeviceId`
has been bound by the first successful device-name match it never changes.
But the code uses device id 0 as the "unbound" sentinel (line 103): an event
from device id 0 whose name matches is accepted and assigns
`trustedShortcutsDeviceId = 0`, which leaves the role effectively unbound, so
a later matching event from device 7 rebinds the field — it changes after the
first successful name match. -/
theorem c5_zero_id_rebind_cex :
    nmZero 0 = some TRUSTED_SHORTCUTS_DEVICE_NAME ∧
    (handleShortcutsKeyEvent nmZero true 0 500
      ⟨0, 250, 254, KeyAction.down⟩ sUnbound).1 = true ∧
    (handleKeyEvent nmZero true 0 500
      ⟨0, 250, 254, KeyAction.down⟩ sUnbound).2.1.trustedShortcutsDeviceId = 0 ∧
    (runEvents nmZero 500 sUnbound
      [⟨0, true, ⟨0, 250, 254, KeyAction.down⟩⟩,
       ⟨10, true, ⟨7, 250, 254, KeyAction.down⟩⟩]).1.trustedShortcutsDeviceId = 7 := by
  decide

/-- C1 amended.  Arming the deferred partial-screenshot timer (a down-edge of
one role while the peer's pressed flag is true) does not cancel a previously
pending instance: it appends a new instance with its own deadline, so several
instances can be pending at once.  The discipline that actually holds is:
every accepted up-edge of either role removes all pending instances at once,
and the fire body acts at most once in a row — a fire immediately following a
fire emits nothing and leaves the state unchanged, because an effective fire
clears both pressed flags. -/
theorem c1_amended_timer_discipline :
    (∀ (nameOf : Int → Option String) (i : Bool) (now L : Nat) (e : KeyEvent) (s : KHState),
      (handleShortcutsKeyEvent nameOf i now L e s).1 = true → e.action = KeyAction.down →
      s.powerKeyPressed = true →
      (handleShortcutsKeyEvent nameOf i now L e s).2.1.pendingTimers =
        s.pendingTimers ++ [now + L]) ∧
    (∀ (nameOf : Int → Option String) (i : Bool) (now L : Nat) (e : KeyEvent) (s : KHState),
      (handlePowerKeyEvent nameOf i now L e s).1 = true → e.action = KeyAction.down →
      s.shortcutsKeyPressed = true →
      (handlePowerKeyEvent nameOf i now L e s).2.1.pendingTimers =
        s.pendingTimers ++ [now + L]) ∧
    (∀ (nameOf : Int → Option String) (i : Bool) (now L : Nat) (e : KeyEvent) (s : KHState),
      (handleShortcutsKeyEvent nameOf i now L e s).1 = true → e.action = KeyAction.up →
      (handleShortcutsKeyEvent nameOf i now L e s).2.1.pendingTimers = []) ∧
    (∀ (nameOf : Int → Option String) (i : Bool) (now L : Nat) (e : KeyEvent) (s : KHState),
      (handlePowerKeyEvent nameOf i now L e s).1 = true → e.action = KeyAction.up →
      (handlePowerKeyEvent nameOf i now L e s).2.1.pendingTimers = []) ∧
    (∀ s : KHState,
      triggerPartialScreenshot (triggerPartialScreenshot s).1 =
        ((triggerPartialScreenshot s).1, [])) := by
  refine ⟨?_, ?_, ?_, ?_, ?_⟩
  · intro nameOf i now L e s hacc ha hp
    obtain ⟨s1, htr, hsc, heq⟩ := handleShortcuts_accepted nameOf i now L e s hacc
    have hf := trustShortcuts_fields nameOf e s s1 htr
    rw [heq, ha]
    simp only [shortcutsAction]
    simp [hf.2.2.1, hp, hf.2.2.2.2.2.2.2]
    split <;> simp
  · intro nameOf i now L e s hacc ha hp
    obtain ⟨s1, htr, hsc, heq⟩ := handlePower_accepted nameOf i now L e s hacc
    have hf := trustPower_fields nameOf e s s1 htr
    rw [heq, ha]
    simp only [powerAction]
    simp [hf.2.1, hp, hf.2.2.2.2.2.2.2]
    split <;> simp
  · intro nameOf i now L e s hacc ha
    obtain ⟨s1, htr, hsc, heq⟩ := handleShortcuts_accepted nameOf i now L e s hacc
    rw [heq, ha]
    simp only [shortcutsAction]
    split <;> simp
  · intro nameOf i now L e s hacc ha
    obtain ⟨s1, htr, hsc, heq⟩ := handlePower_accepted nameOf i now L e s hacc
    rw [heq, ha]
    simp only [powerAction]
    split <;> simp
  · intro s
    unfold triggerPartialScreenshot
    by_cases h : s.shortcutsKeyPressed && s.powerKeyPressed
    · simp [h]
    · simp [h]

/-- Witness for C1 amended: a concrete arm appends its deadline, a concrete
up-edge clears the queue, and a repeated fire from the armed combo state is
inert. -/
theorem c1_amended_timer_discipline_witness :
    (handleShortcutsKeyEvent nmTrusted true 10 500 (evS KeyAction.down)
        { sBound with powerKeyPressed := true }).2.1.pendingTimers =
      { sBound with powerKeyPressed := true }.pendingTimers ++ [10 + 500] ∧
    (handlePowerKeyEvent nmTrusted true 0 500 (evP KeyAction.up) sBound).2.1.pendingTimers
      = [] ∧
    triggerPartialScreenshot
        (triggerPartialScreenshot
          { sBound with shortcutsKeyPressed := true, powerKeyPressed := true }).1 =
      ((triggerPartialScreenshot
          { sBound with shortcutsKeyPressed := true, powerKeyPressed := true }).1, []) :=
  ⟨c1_amended_timer_discipline.1 nmTrusted true 10 500 (evS KeyAction.down)
      { sBound with powerKeyPressed := true } (by decide) rfl rfl,
   c1_amended_timer_discipline.2.2.2.1 nmTrusted true 0 500 (evP KeyAction.up) sBound
      (by decide) rfl,
   c1_amended_timer_discipline.2.2.2.2
      { sBound with shortcutsKeyPressed := true, powerKeyPressed := true }⟩

/-- C2 amended.  A parsable shortcuts file always sets the shortcuts scan
code, and a parsable power file sets the power scan code only when the
shortcuts file parsed too: because both reads share one `try` block, a
shortcuts parse failure disables both roles (both scan codes keep the 0
default), while a power parse failure disables only the power role.
Construction itself never fails: it always yields the unbound idle state
apart from the scan codes. -/
theorem c2_amended_config_isolation (sf pf : Option String) (a b : Int) :
    (parseJavaInt sf = some a → (initKeyHandler sf pf).shortcutsScanCode = a) ∧
    (parseJavaInt sf = some a → parseJavaInt pf = some b →
      (initKeyHandler sf pf).powerScanCode = b) ∧
    (parseJavaInt sf = none → initKeyHandler sf pf = emptyState) ∧
    (parseJavaInt pf = none → (initKeyHandler sf pf).powerScanCode = 0) ∧
    (initKeyHandler sf pf).trustedShortcutsDeviceId = 0 ∧
    (initKeyHandler sf pf).trustedPowerDeviceId = 0 ∧
    (initKeyHandler sf pf).shortcutsKeyPressed = false ∧
    (initKeyHandler sf pf).powerKeyPressed = false ∧
    (initKeyHandler sf pf).pendingTimers = [] := by
  unfold initKeyHandler
  cases hs : parseJavaInt sf with
  | none => simp [emptyState]
  | some sc =>
    cases hp : parseJavaInt pf with
    | none => simp [emptyState]
    | some pc => simp [emptyState]

/-- Witness for C2 amended at parsable contents "250" and "116". -/
theorem c2_amended_config_isolation_witness :
    (initKeyHandler (some "250") (some "116")).shortcutsScanCode = 250 ∧
    (initKeyHandler (some "250") (some "116")).powerScanCode = 116 :=
  ⟨(c2_amended_config_isolation (some "250") (some "116") 250 116).1 (by decide),
   (c2_amended_config_isolation (some "250") (some "116") 250 116).2.1
     (by decide) (by decide)⟩

/-- C3 amended.  An accepted up-edge for a role, processed while the peer's
pressed flag is false, triggers no screenshot of either kind and injects
exactly the role's own genuine pass-through up (for the key code just learned
from the event), clears the role's flag, leaves the peer's flag false and
removes every pending timer — so an up-edge with no matching prior down-edge
is harmless in that situation.  When the peer's flag is true, however, even an
unmatched up-edge resolves the combo with a full screenshot (see the
counterexample). -/
theorem c3_amended_idempotent_release (nameOf : Int → Option String) (i : Bool)
    (now L : Nat) (e : KeyEvent) (s : KHState) :
    ((handleShortcutsKeyEvent nameOf i now L e s).1 = true → e.action = KeyAction.up →
      s.powerKeyPressed = false →
      (handleShortcutsKeyEvent nameOf i now L e s).2.2 =
        [Effect.inject e.keyCode KeyAction.up false] ∧
      screenshotCount true (handleShortcutsKeyEvent nameOf i now L e s).2.2 = 0 ∧
      screenshotCount false (handleShortcutsKeyEvent nameOf i now L e s).2.2 = 0 ∧
      (handleShortcutsKeyEvent nameOf i now L e s).2.1.shortcutsKeyPressed = false ∧
      (handleShortcutsKeyEvent nameOf i now L e s).2.1.powerKeyPressed = false ∧
      (handleShortcutsKeyEvent nameOf i now L e s).2.1.pendingTimers = []) ∧
    ((handlePowerKeyEvent nameOf i now L e s).1 = true → e.action = KeyAction.up →
      s.shortcutsKeyPressed = false →
      (handlePowerKeyEvent nameOf i now L e s).2.2 =
        [Effect.inject e.keyCode KeyAction.up false] ∧
      screenshotCount true (handlePowerKeyEvent nameOf i now L e s).2.2 = 0 ∧
      screenshotCount false (handlePowerKeyEvent nameOf i now L e s).2.2 = 0 ∧
      (handlePowerKeyEvent nameOf i now L e s).2.1.powerKeyPressed = false ∧
      (handlePowerKeyEvent nameOf i now L e s).2.1.shortcutsKeyPressed = false ∧
      (handlePowerKeyEvent nameOf i now L e s).2.1.pendingTimers = []) := by
  constructor
  · intro hacc ha hp
    obtain ⟨s1, htr, hsc, heq⟩ := handleShortcuts_accepted nameOf i now L e s hacc
    have hf := trustShortcuts_fields nameOf e s s1 htr
    rw [heq, ha]
    simp only [shortcutsAction]
    simp [hf.2.2.1, hf.2.1, hp, screenshotCount]
  · intro hacc ha hp
    obtain ⟨s1, htr, hsc, heq⟩ := handlePower_accepted nameOf i now L e s hacc
    have hf := trustPower_fields nameOf e s s1 htr
    rw [heq, ha]
    simp only [powerAction]
    simp [hf.2.1, hf.2.2.1, hp, screenshotCount]

/-- Witness for C3 amended: an unmatched shortcuts up-edge (and power
up-edge) from the idle bound state injects only its own genuine up. -/
theorem c3_amended_idempotent_release_witness :
    (handleShortcutsKeyEvent nmTrusted true 0 500 (evS KeyAction.up) sBound).2.2 =
      [Effect.inject 254 KeyAction.up false] ∧
    (handlePowerKeyEvent nmTrusted true 0 500 (evP KeyAction.up) sBound).2.2 =
      [Effect.inject 26 KeyAction.up false] :=
  ⟨((c3_amended_idempotent_release nmTrusted true 0 500 (evS KeyAction.up) sBound).1
      (by decide) rfl rfl).1,
   ((c3_amended_idempotent_release nmTrusted true 0 500 (evP KeyAction.up) sBound).2
      (by decide) rfl rfl).1⟩

/-- A matched scan code always consumes the event. -/
theorem shortcutsAction_fst (i : Bool) (now L : Nat) (act : KeyAction) (s : KHState) :
    (shortcutsAction i now L act s).1 = true := by
  unfold shortcutsAction
  cases act <;> dsimp only <;> (try split) <;> rfl

/-- A matched scan code always consumes the event (power role). -/
theorem powerAction_fst (i : Bool) (now L : Nat) (act : KeyAction) (s : KHState) :
    (powerAction i now L act s).1 = true := by
  unfold powerAction
  cases act <;> dsimp only <;> (try split) <;> rfl

/-- A rejecting shortcuts handler emits nothing and at most binds the trust
field (when the name matched but the scan code did not). -/
theorem handleShortcuts_rejected (nameOf : Int → Option String) (i : Bool)
    (now L : Nat) (e : KeyEvent) (s : KHState)
    (h : (handleShortcutsKeyEvent nameOf i now L e s).1 = false) :
    (handleShortcutsKeyEvent nameOf i now L e s).2.2 = [] ∧
    ((handleShortcutsKeyEvent nameOf i now L e s).2.1 = s ∨
     (handleShortcutsKeyEvent nameOf i now L e s).2.1 =
       { s with trustedShortcutsDeviceId := e.deviceId }) := by
  unfold handleShortcutsKeyEvent at h ⊢
  cases htr : trustShortcuts nameOf e s with
  | none => simp
  | some s1 =>
    dsimp only at h ⊢
    by_cases hsc : e.scanCode = s1.shortcutsScanCode
    · exfalso
      rw [htr] at h
      dsimp only at h
      rw [if_pos hsc, shortcutsAction_fst] at h
      exact Bool.noConfusion h
    · rw [if_neg hsc]
      rcases trustShortcuts_some nameOf e s s1 htr with h1 | h1 <;> subst h1 <;> simp

/-- A rejecting power handler emits nothing and at most binds the trust
field. -/
theorem handlePower_rejected (nameOf : Int → Option String) (i : Bool)
    (now L : Nat) (e : KeyEvent) (s : KHState)
    (h : (handlePowerKeyEvent nameOf i now L e s).1 = false) :
    (handlePowerKeyEvent nameOf i now L e s).2.2 = [] ∧
    ((handlePowerKeyEvent nameOf i now L e s).2.1 = s ∨
     (handlePowerKeyEvent nameOf i now L e s).2.1 =
       { s with trustedPowerDeviceId := e.deviceId }) := by
  unfold handlePowerKeyEvent at h ⊢
  cases htr : trustPower nameOf e s with
  | none => simp
  | some s1 =>
    dsimp only at h ⊢
    by_cases hsc : e.scanCode = s1.powerScanCode
    · exfalso
      rw [htr] at h
      dsimp only at h
      rw [if_pos hsc, powerAction_fst] at h
      exact Bool.noConfusion h
    · rw [if_neg hsc]
      rcases trustPower_some nameOf e s s1 htr with h1 | h1 <;> subst h1 <;> simp

/-- C4 amended.  The peer-cancel mechanism holds at every step: whenever a
role's down-edge is processed while the other role's pressed flag is true, the
handler injects exactly one canceled phantom up for the peer's learned key
code and no genuine down for itself (the effect list is exactly that phantom).
The stream-level claim fails, however: a down-edge processed while
non-interactive injects a genuine down without setting the pressed flag, so
the flag-based guard does not prevent two simultaneously outstanding genuine
downs (see the counterexample). -/
theorem c4_amended_peer_cancel (nameOf : Int → Option String) (i : Bool)
    (now L : Nat) (e : KeyEvent) (s : KHState) :
    ((handleShortcutsKeyEvent nameOf i now L e s).1 = true → e.action = KeyAction.down →
      s.powerKeyPressed = true →
      (handleShortcutsKeyEvent nameOf i now L e s).2.2 =
        [Effect.inject s.powerKeyCode KeyAction.up true]) ∧
    ((handlePowerKeyEvent nameOf i now L e s).1 = true → e.action = KeyAction.down →
      s.shortcutsKeyPressed = true →
      (handlePowerKeyEvent nameOf i now L e s).2.2 =
        [Effect.inject s.shortcutsKeyCode KeyAction.up true]) := by
  constructor
  · intro hacc ha hp
    obtain ⟨s1, htr, hsc, heq⟩ := handleShortcuts_accepted nameOf i now L e s hacc
    have hf := trustShortcuts_fields nameOf e s s1 htr
    rw [heq, ha]
    simp only [shortcutsAction]
    simp [hf.2.2.1, hp, hf.2.2.2.2.2.2.1]
  · intro hacc ha hp
    obtain ⟨s1, htr, hsc, heq⟩ := handlePower_accepted nameOf i now L e s hacc
    have hf := trustPower_fields nameOf e s s1 htr
    rw [heq, ha]
    simp only [powerAction]
    simp [hf.2.1, hp, hf.2.2.2.2.1]

/-- Witness for C4 amended: concrete down-edges against a pressed peer. -/
theorem c4_amended_peer_cancel_witness :
    (handleShortcutsKeyEvent nmTrusted true 0 500 (evS KeyAction.down)
        { sBound with powerKeyPressed := true, powerKeyCode := 26 }).2.2 =
      [Effect.inject 26 KeyAction.up true] ∧
    (handlePowerKeyEvent nmTrusted true 0 500 (evP KeyAction.down)
        { sBound with shortcutsKeyPressed := true, shortcutsKeyCode := 254 }).2.2 =
      [Effect.inject 254 KeyAction.up true] :=
  ⟨(c4_amended_peer_cancel nmTrusted true 0 500 (evS KeyAction.down)
      { sBound with powerKeyPressed := true, powerKeyCode := 26 }).1
      (by decide) rfl rfl,
   (c4_amended_peer_cancel nmTrusted true 0 500 (evP KeyAction.down)
      { sBound with shortcutsKeyPressed := true, shortcutsKeyCode := 254 }).2
      (by decide) rfl rfl⟩

/-- A pressed flag already false stays false unless the step is an
interactive down-edge: role-action level statement for the shortcuts role. -/
theorem shortcutsAction_raises (i : Bool) (now L : Nat) (act : KeyAction) (s : KHState) :
    ((shortcutsAction i now L act s).2.1.shortcutsKeyPressed = true →
      s.shortcutsKeyPressed = true ∨ (i = true ∧ act = KeyAction.down)) ∧
    ((shortcutsAction i now L act s).2.1.powerKeyPressed = true →
      s.powerKeyPressed = true) := by
  unfold shortcutsAction
  cases act <;> dsimp only
  · constructor
    · intro h
      by_cases hi : i = true
      · exact Or.inr ⟨hi, rfl⟩
      · left
        revert h
        split <;> simp [hi]
    · intro h
      revert h
      split <;> (by_cases hi : i = true <;> simp [hi])
  · constructor
    · intro h
      revert h
      split <;> simp
    · intro h
      revert h
      split <;> simp
  · exact ⟨fun h => Or.inl h, fun h => h⟩

/-- Symmetric statement for the power role. -/
theorem powerAction_raises (i : Bool) (now L : Nat) (act : KeyAction) (s : KHState) :
    ((powerAction i now L act s).2.1.powerKeyPressed = true →
      s.powerKeyPressed = true ∨ (i = true ∧ act = KeyAction.down)) ∧
    ((powerAction i now L act s).2.1.shortcutsKeyPressed = true →
      s.shortcutsKeyPressed = true) := by
  unfold powerAction
  cases act <;> dsimp only
  · constructor
    · intro h
      by_cases hi : i = true
      · exact Or.inr ⟨hi, rfl⟩
      · left
        revert h
        split <;> simp [hi]
    · intro h
      revert h
      split <;> (by_cases hi : i = true <;> simp [hi])
  · constructor
    · intro h
      revert h
      split <;> simp
    · intro h
      revert h
      split <;> simp
  · exact ⟨fun h => Or.inl h, fun h => h⟩

/-- The shortcuts handler raises its own flag only on an interactive
down-edge and never raises the power flag. -/
theorem handleShortcuts_raises (nameOf : Int → Option String) (i : Bool)
    (now L : Nat) (e : KeyEvent) (s : KHState) :
    ((handleShortcutsKeyEvent nameOf i now L e s).2.1.shortcutsKeyPressed = true →
      s.shortcutsKeyPressed = true ∨ (i = true ∧ e.action = KeyAction.down)) ∧
    ((handleShortcutsKeyEvent nameOf i now L e s).2.1.powerKeyPressed = true →
      s.powerKeyPressed = true) := by
  by_cases hacc : (handleShortcutsKeyEvent nameOf i now L e s).1 = true
  · obtain ⟨s1, htr, hsc, heq⟩ := handleShortcuts_accepted nameOf i now L e s hacc
    have hf := trustShortcuts_fields nameOf e s s1 htr
    rw [heq]
    constructor
    · intro h
      rcases (shortcutsAction_raises i now L e.action _).1 h with h1 | h1
      · left
        simp only at h1
        rw [hf.2.1] at h1
        exact h1
      · exact Or.inr h1
    · intro h
      have h1 := (shortcutsAction_raises i now L e.action _).2 h
      simp only at h1
      rw [hf.2.2.1] at h1
      exact h1
  · have hfalse : (handleShortcutsKeyEvent nameOf i now L e s).1 = false := by
      revert hacc
      cases (handleShortcutsKeyEvent nameOf i now L e s).1 <;> simp
    obtain ⟨heff, hst⟩ := handleShortcuts_rejected nameOf i now L e s hfalse
    rcases hst with h1 | h1 <;> rw [h1] <;>
      exact ⟨fun h => Or.inl h, fun h => h⟩

/-- The power handler raises its own flag only on an interactive down-edge
and never raises the shortcuts flag. -/
theorem handlePower_raises (nameOf : Int → Option String) (i : Bool)
    (now L : Nat) (e : KeyEvent) (s : KHState) :
    ((handlePowerKeyEvent nameOf i now L e s).2.1.powerKeyPressed = true →
      s.powerKeyPressed = true ∨ (i = true ∧ e.action = KeyAction.down)) ∧
    ((handlePowerKeyEvent nameOf i now L e s).2.1.shortcutsKeyPressed = true →
      s.shortcutsKeyPressed = true) := by
  by_cases hacc : (handlePowerKeyEvent nameOf i now L e s).1 = true
  · obtain ⟨s1, htr, hsc, heq⟩ := handlePower_accepted nameOf i now L e s hacc
    have hf := trustPower_fields nameOf e s s1 htr
    rw [heq]
    constructor
    · intro h
      rcases (powerAction_raises i now L e.action _).1 h with h1 | h1
      · left
        simp only at h1
        rw [hf.2.2.1] at h1
        exact h1
      · exact Or.inr h1
    · intro h
      have h1 := (powerAction_raises i now L e.action _).2 h
      simp only at h1
      rw [hf.2.1] at h1
      exact h1
  · have hfalse : (handlePowerKeyEvent nameOf i now L e s).1 = false := by
      revert hacc
      cases (handlePowerKeyEvent nameOf i now L e s).1 <;> simp
    obtain ⟨heff, hst⟩ := handlePower_rejected nameOf i now L e s hfalse
    rcases hst with h1 | h1 <;> rw [h1] <;>
      exact ⟨fun h => Or.inl h, fun h => h⟩

/-- The full per-event entry point raises a pressed flag only on an
interactive down-edge. -/
theorem handleKeyEvent_raises (nameOf : Int → Option String) (i : Bool)
    (now L : Nat) (e : KeyEvent) (s : KHState) :
    ((handleKeyEvent nameOf i now L e s).2.1.shortcutsKeyPressed = true →
      s.shortcutsKeyPressed = true ∨ (i = true ∧ e.action = KeyAction.down)) ∧
    ((handleKeyEvent nameOf i now L e s).2.1.powerKeyPressed = true →
      s.powerKeyPressed = true ∨ (i = true ∧ e.action = KeyAction.down)) := by
  unfold handleKeyEvent
  dsimp only
  by_cases h1 : (handleShortcutsKeyEvent nameOf i now L e s).1 = true
  · rw [if_pos h1]
    exact ⟨(handleShortcuts_raises nameOf i now L e s).1,
           fun h => Or.inl ((handleShortcuts_raises nameOf i now L e s).2 h)⟩
  · rw [if_neg h1]
    have hfalse : (handleShortcutsKeyEvent nameOf i now L e s).1 = false := by
      revert h1
      cases (handleShortcutsKeyEvent nameOf i now L e s).1 <;> simp
    obtain ⟨heff, hst⟩ := handleShortcuts_rejected nameOf i now L e s hfalse
    have hflagS : (handleShortcutsKeyEvent nameOf i now L e s).2.1.shortcutsKeyPressed =
        s.shortcutsKeyPressed := by
      rcases hst with h3 | h3 <;> rw [h3]
    have hflagP : (handleShortcutsKeyEvent nameOf i now L e s).2.1.powerKeyPressed =
        s.powerKeyPressed := by
      rcases hst with h3 | h3 <;> rw [h3]
    by_cases h2 :
        (handlePowerKeyEvent nameOf i now L e
          (handleShortcutsKeyEvent nameOf i now L e s).2.1).1 = true <;>
      [rw [if_pos h2]; rw [if_neg h2]] <;>
      refine ⟨fun h => ?_, fun h => ?_⟩
    · exact Or.inl (by
        rw [← hflagS]
        exact (handlePower_raises nameOf i now L e _).2 h)
    · rcases (handlePower_raises nameOf i now L e _).1 h with hx | hx
      · exact Or.inl (by rw [← hflagP]; exact hx)
      · exact Or.inr hx
    · exact Or.inl (by
        rw [← hflagS]
        exact (handlePower_raises nameOf i now L e _).2 h)
    · rcases (handlePower_raises nameOf i now L e _).1 h with hx | hx
      · exact Or.inl (by rw [← hflagP]; exact hx)
      · exact Or.inr hx

/-- C8 confirmed.  An accepted down-edge processed while non-interactive is
consumed and still performs its injection (peer phantom cancel when the peer
flag is set, otherwise a genuine down for the just-learned key code), but it
leaves the role's pressed flag exactly as it was — in particular a flag that
was false remains false.  Conversely, across the whole entry point a pressed
flag can go from false to true only when the event is a down-edge processed
while interactive. -/
theorem c8_interactivity_gating (nameOf : Int → Option String) (now L : Nat)
    (e : KeyEvent) (s : KHState) :
    ((handleShortcutsKeyEvent nameOf false now L e s).1 = true →
      e.action = KeyAction.down →
      (handleShortcutsKeyEvent nameOf false now L e s).2.1.shortcutsKeyPressed =
        s.shortcutsKeyPressed ∧
      (handleShortcutsKeyEvent nameOf false now L e s).2.2 =
        (if s.powerKeyPressed = true then [Effect.inject s.powerKeyCode KeyAction.up true]
         else [Effect.inject e.keyCode KeyAction.down false])) ∧
    ((handlePowerKeyEvent nameOf false now L e s).1 = true →
      e.action = KeyAction.down →
      (handlePowerKeyEvent nameOf false now L e s).2.1.powerKeyPressed =
        s.powerKeyPressed ∧
      (handlePowerKeyEvent nameOf false now L e s).2.2 =
        (if s.shortcutsKeyPressed = true then
           [Effect.inject s.shortcutsKeyCode KeyAction.up true]
         else [Effect.inject e.keyCode KeyAction.down false])) ∧
    (∀ i : Bool, (handleKeyEvent nameOf i now L e s).2.1.shortcutsKeyPressed = true →
      s.shortcutsKeyPressed = true ∨ (i = true ∧ e.action = KeyAction.down)) ∧
    (∀ i : Bool, (handleKeyEvent nameOf i now L e s).2.1.powerKeyPressed = true →
      s.powerKeyPressed = true ∨ (i = true ∧ e.action = KeyAction.down)) := by
  refine ⟨?_, ?_, fun i => (handleKeyEvent_raises nameOf i now L e s).1,
          fun i => (handleKeyEvent_raises nameOf i now L e s).2⟩
  · intro hacc ha
    obtain ⟨s1, htr, hsc, heq⟩ := handleShortcuts_accepted nameOf false now L e s hacc
    have hf := trustShortcuts_fields nameOf e s s1 htr
    rw [heq, ha]
    simp only [shortcutsAction]
    by_cases hp : s.powerKeyPressed = true
    · simp [hf.2.2.1, hf.2.1, hp, hf.2.2.2.2.2.2.1]
    · have hp2 : s.powerKeyPressed = false := by
        revert hp
        cases s.powerKeyPressed <;> simp
      simp [hf.2.2.1, hf.2.1, hp2]
  · intro hacc ha
    obtain ⟨s1, htr, hsc, heq⟩ := handlePower_accepted nameOf false now L e s hacc
    have hf := trustPower_fields nameOf e s s1 htr
    rw [heq, ha]
    simp only [powerAction]
    by_cases hp : s.shortcutsKeyPressed = true
    · simp [hf.2.1, hf.2.2.1, hp, hf.2.2.2.2.1]
    · have hp2 : s.shortcutsKeyPressed = false := by
        revert hp
        cases s.shortcutsKeyPressed <;> simp
      simp [hf.2.1, hf.2.2.1, hp2]

/-- Witness for C8: a concrete accepted shortcuts down-edge with the screen
off leaves the flag false yet still injects the genuine down, and a concrete
interactive flag-raise satisfies the characterization. -/
theorem c8_interactivity_gating_witness :
    ((handleShortcutsKeyEvent nmTrusted false 0 500 (evS KeyAction.down)
        sBound).2.1.shortcutsKeyPressed = sBound.shortcutsKeyPressed ∧
      (handleShortcutsKeyEvent nmTrusted false 0 500 (evS KeyAction.down) sBound).2.2 =
        (if sBound.powerKeyPressed = true then
           [Effect.inject sBound.powerKeyCode KeyAction.up true]
         else [Effect.inject (evS KeyAction.down).keyCode KeyAction.down false])) ∧
    (sBound.shortcutsKeyPressed = true ∨
      (true = true ∧ (evS KeyAction.down).action = KeyAction.down)) :=
  ⟨(c8_interactivity_gating nmTrusted 0 500 (evS KeyAction.down) sBound).1
      (by decide) rfl,
   (c8_interactivity_gating nmTrusted 0 500 (evS KeyAction.down) sBound).2.2.1 true
      (by decide)⟩

/-- With a nonzero bound id, successful trust resolution means the event came
from exactly the bound device and the state is untouched. -/
theorem trustShortcuts_bound (nameOf : Int → Option String) (e : KeyEvent)
    (s s1 : KHState) (h0 : s.trustedShortcutsDeviceId ≠ 0)
    (h : trustShortcuts nameOf e s = some s1) :
    s1 = s ∧ s.trustedShortcutsDeviceId = e.deviceId := by
  unfold trustShortcuts at h
  rw [if_neg h0] at h
  split at h
  · exact ⟨(Option.some.inj h).symm, by assumption⟩
  · exact absurd h (by simp)

/-- Power-role version of `trustShortcuts_bound`. -/
theorem trustPower_bound (nameOf : Int → Option String) (e : KeyEvent)
    (s s1 : KHState) (h0 : s.trustedPowerDeviceId ≠ 0)
    (h : trustPower nameOf e s = some s1) :
    s1 = s ∧ s.trustedPowerDeviceId = e.deviceId := by
  unfold trustPower at h
  rw [if_neg h0] at h
  split at h
  · exact ⟨(Option.some.inj h).symm, by assumption⟩
  · exact absurd h (by simp)

/-- A bound role rejects any other device id. -/
theorem trustShortcuts_reject_diff (nameOf : Int → Option String) (e : KeyEvent)
    (s : KHState) (h0 : s.trustedShortcutsDeviceId ≠ 0)
    (hne : s.trustedShortcutsDeviceId ≠ e.deviceId) :
    trustShortcuts nameOf e s = none := by
  unfold trustShortcuts
  rw [if_neg h0, if_neg hne]

/-- A bound power role rejects any other device id. -/
theorem trustPower_reject_diff (nameOf : Int → Option String) (e : KeyEvent)
    (s : KHState) (h0 : s.trustedPowerDeviceId ≠ 0)
    (hne : s.trustedPowerDeviceId ≠ e.deviceId) :
    trustPower nameOf e s = none := by
  unfold trustPower
  rw [if_neg h0, if_neg hne]

/-- An unbound role rejects any device whose name does not match. -/
theorem trustShortcuts_reject_name (nameOf : Int → Option String) (e : KeyEvent)
    (s : KHState) (h0 : s.trustedShortcutsDeviceId = 0)
    (hn : nameOf e.deviceId ≠ some TRUSTED_SHORTCUTS_DEVICE_NAME) :
    trustShortcuts nameOf e s = none := by
  unfold trustShortcuts
  rw [if_pos h0, if_neg hn]

/-- An unbound power role rejects any device whose name does not match. -/
theorem trustPower_reject_name (nameOf : Int → Option String) (e : KeyEvent)
    (s : KHState) (h0 : s.trustedPowerDeviceId = 0)
    (hn : nameOf e.deviceId ≠ some TRUSTED_POWER_DEVICE_NAME) :
    trustPower nameOf e s = none := by
  unfold trustPower
  rw [if_pos h0, if_neg hn]

/-- The action switch never writes either trust field. -/
theorem shortcutsAction_trust (i : Bool) (now L : Nat) (act : KeyAction) (s : KHState) :
    (shortcutsAction i now L act s).2.1.trustedShortcutsDeviceId =
      s.trustedShortcutsDeviceId ∧
    (shortcutsAction i now L act s).2.1.trustedPowerDeviceId = s.trustedPowerDeviceId := by
  unfold shortcutsAction
  cases act <;> dsimp only
  · constructor <;> (split <;> split <;> simp)
  · constructor <;> (split <;> simp)
  · exact ⟨rfl, rfl⟩

/-- The power action switch never writes either trust field. -/
theorem powerAction_trust (i : Bool) (now L : Nat) (act : KeyAction) (s : KHState) :
    (powerAction i now L act s).2.1.trustedShortcutsDeviceId =
      s.trustedShortcutsDeviceId ∧
    (powerAction i now L act s).2.1.trustedPowerDeviceId = s.trustedPowerDeviceId := by
  unfold powerAction
  cases act <;> dsimp only
  · constructor <;> (split <;> split <;> simp)
  · constructor <;> (split <;> simp)
  · exact ⟨rfl, rfl⟩

/-- The shortcuts handler never writes the power trust field, and never
touches its own trust field once it is nonzero. -/
theorem handleShortcuts_trust (nameOf : Int → Option String) (i : Bool)
    (now L : Nat) (e : KeyEvent) (s : KHState) :
    (handleShortcutsKeyEvent nameOf i now L e s).2.1.trustedPowerDeviceId =
      s.trustedPowerDeviceId ∧
    (s.trustedShortcutsDeviceId ≠ 0 →
      (handleShortcutsKeyEvent nameOf i now L e s).2.1.trustedShortcutsDeviceId =
        s.trustedShortcutsDeviceId) := by
  unfold handleShortcutsKeyEvent
  cases htr : trustShortcuts nameOf e s with
  | none => exact ⟨rfl, fun h0 => rfl⟩
  | some s1 =>
    have hf := trustShortcuts_fields nameOf e s s1 htr
    dsimp only
    by_cases hsc : e.scanCode = s1.shortcutsScanCode
    · rw [if_pos hsc]
      constructor
      · rw [(shortcutsAction_trust i now L e.action _).2]
        exact hf.1
      · intro h0
        rw [(shortcutsAction_trust i now L e.action _).1]
        obtain ⟨hs1, _⟩ := trustShortcuts_bound nameOf e s s1 h0 htr
        rw [hs1]
    · rw [if_neg hsc]
      constructor
      · exact hf.1
      · intro h0
        obtain ⟨hs1, _⟩ := trustShortcuts_bound nameOf e s s1 h0 htr
        rw [hs1]

/-- The power handler never writes the shortcuts trust field, and never
touches its own trust field once it is nonzero. -/
theorem handlePower_trust (nameOf : Int → Option String) (i : Bool)
    (now L : Nat) (e : KeyEvent) (s : KHState) :
    (handlePowerKeyEvent nameOf i now L e s).2.1.trustedShortcutsDeviceId =
      s.trustedShortcutsDeviceId ∧
    (s.trustedPowerDeviceId ≠ 0 →
      (handlePowerKeyEvent nameOf i now L e s).2.1.trustedPowerDeviceId =
        s.trustedPowerDeviceId) := by
  unfold handlePowerKeyEvent
  cases htr : trustPower nameOf e s with
  | none => exact ⟨rfl, fun h0 => rfl⟩
  | some s1 =>
    have hf := trustPower_fields nameOf e s s1 htr
    dsimp only
    by_cases hsc : e.scanCode = s1.powerScanCode
    · rw [if_pos hsc]
      constructor
      · rw [(powerAction_trust i now L e.action _).1]
        exact hf.1
      · intro h0
        rw [(powerAction_trust i now L e.action _).2]
        obtain ⟨hs1, _⟩ := trustPower_bound nameOf e s s1 h0 htr
        rw [hs1]
    · rw [if_neg hsc]
      constructor
      · exact hf.1
      · intro h0
        obtain ⟨hs1, _⟩ := trustPower_bound nameOf e s s1 h0 htr
        rw [hs1]

/-- Across one full `handleKeyEvent` call, a nonzero trust binding of either
role is preserved. -/
theorem handleKeyEvent_trust (nameOf : Int → Option String) (i : Bool)
    (now L : Nat) (e : KeyEvent) (s : KHState) :
    (s.trustedShortcutsDeviceId ≠ 0 →
      (handleKeyEvent nameOf i now L e s).2.1.trustedShortcutsDeviceId =
        s.trustedShortcutsDeviceId) ∧
    (s.trustedPowerDeviceId ≠ 0 →
      (handleKeyEvent nameOf i now L e s).2.1.trustedPowerDeviceId =
        s.trustedPowerDeviceId) := by
  unfold handleKeyEvent
  dsimp only
  by_cases h1 : (handleShortcutsKeyEvent nameOf i now L e s).1 = true
  · rw [if_pos h1]
    exact ⟨(handleShortcuts_trust nameOf i now L e s).2,
           fun _ => (handleShortcuts_trust nameOf i now L e s).1⟩
  · rw [if_neg h1]
    have hX := handleShortcuts_trust nameOf i now L e s
    by_cases h2 :
        (handlePowerKeyEvent nameOf i now L e
          (handleShortcutsKeyEvent nameOf i now L e s).2.1).1 = true <;>
      [rw [if_pos h2]; rw [if_neg h2]] <;>
      refine ⟨fun h0 => ?_, fun h0 => ?_⟩
    · rw [(handlePower_trust nameOf i now L e _).1]
      exact hX.2 h0
    · rw [(handlePower_trust nameOf i now L e _).2 (by rw [hX.1]; exact h0)]
      exact hX.1
    · rw [(handlePower_trust nameOf i now L e _).1]
      exact hX.2 h0
    · rw [(handlePower_trust nameOf i now L e _).2 (by rw [hX.1]; exact h0)]
      exact hX.1

/-- A nonzero trust binding survives any sequence of handled events. -/
theorem runEvents_trust (nameOf : Int → Option String) (L : Nat) :
    ∀ (l : List TimedEvent) (s : KHState),
    (s.trustedShortcutsDeviceId ≠ 0 →
      (runEvents nameOf L s l).1.trustedShortcutsDeviceId =
        s.trustedShortcutsDeviceId) ∧
    (s.trustedPowerDeviceId ≠ 0 →
      (runEvents nameOf L s l).1.trustedPowerDeviceId = s.trustedPowerDeviceId) := by
  intro l
  induction l with
  | nil => exact fun s => ⟨fun _ => rfl, fun _ => rfl⟩
  | cons te rest ih =>
    intro s
    constructor
    · intro h0
      have h1 := (handleKeyEvent_trust nameOf te.interactive te.time L te.event s).1 h0
      have h2 := (ih (handleKeyEvent nameOf te.interactive te.time L te.event s).2.1).1
        (by rw [h1]; exact h0)
      unfold runEvents
      dsimp only
      rw [h2, h1]
    · intro h0
      have h1 := (handleKeyEvent_trust nameOf te.interactive te.time L te.event s).2 h0
      have h2 := (ih (handleKeyEvent nameOf te.interactive te.time L te.event s).2.1).2
        (by rw [h1]; exact h0)
      unfold runEvents
      dsimp only
      rw [h2, h1]

/-- The timer body never writes either trust field. -/
theorem trigger_trust (s : KHState) :
    (triggerPartialScreenshot s).1.trustedShortcutsDeviceId =
      s.trustedShortcutsDeviceId ∧
    (triggerPartialScreenshot s).1.trustedPowerDeviceId = s.trustedPowerDeviceId := by
  unfold triggerPartialScreenshot
  split <;> simp

/-- C5 amended.  Trust binding is monotonic once the field is nonzero: over
any sequence of handled events (and across timer fires) a nonzero
`trustedDeviceId` never changes, and a bound role rejects, with no state
change and no effects, every event whose device id differs from the bound
value even if that device's name also matches.  While the field is zero, an
event whose name does not match is rejected without binding.  The
qualification forced by the counterexample: the code conflates device id 0
with "unbound", so a successful name match from device id 0 assigns 0 and
does not durably bind the role. -/
theorem c5_amended_trust_monotonic :
    (∀ (nameOf : Int → Option String) (i : Bool) (now L : Nat) (e : KeyEvent)
        (s : KHState),
      s.trustedShortcutsDeviceId ≠ 0 → s.trustedShortcutsDeviceId ≠ e.deviceId →
      handleShortcutsKeyEvent nameOf i now L e s = (false, s, [])) ∧
    (∀ (nameOf : Int → Option String) (i : Bool) (now L : Nat) (e : KeyEvent)
        (s : KHState),
      s.trustedPowerDeviceId ≠ 0 → s.trustedPowerDeviceId ≠ e.deviceId →
      handlePowerKeyEvent nameOf i now L e s = (false, s, [])) ∧
    (∀ (nameOf : Int → Option String) (i : Bool) (now L : Nat) (e : KeyEvent)
        (s : KHState),
      s.trustedShortcutsDeviceId = 0 →
      nameOf e.deviceId ≠ some TRUSTED_SHORTCUTS_DEVICE_NAME →
      handleShortcutsKeyEvent nameOf i now L e s = (false, s, [])) ∧
    (∀ (nameOf : Int → Option String) (i : Bool) (now L : Nat) (e : KeyEvent)
        (s : KHState),
      s.trustedPowerDeviceId = 0 →
      nameOf e.deviceId ≠ some TRUSTED_POWER_DEVICE_NAME →
      handlePowerKeyEvent nameOf i now L e s = (false, s, [])) ∧
    (∀ (nameOf : Int → Option String) (L : Nat) (l : List TimedEvent) (s : KHState),
      s.trustedShortcutsDeviceId ≠ 0 →
      (runEvents nameOf L s l).1.trustedShortcutsDeviceId =
        s.trustedShortcutsDeviceId) ∧
    (∀ (nameOf : Int → Option String) (L : Nat) (l : List TimedEvent) (s : KHState),
      s.trustedPowerDeviceId ≠ 0 →
      (runEvents nameOf L s l).1.trustedPowerDeviceId = s.trustedPowerDeviceId) ∧
    (∀ s : KHState,
      (triggerPartialScreenshot s).1.trustedShortcutsDeviceId =
        s.trustedShortcutsDeviceId ∧
      (triggerPartialScreenshot s).1.trustedPowerDeviceId = s.trustedPowerDeviceId) := by
  refine ⟨?_, ?_, ?_, ?_, ?_, ?_, trigger_trust⟩
  · intro nameOf i now L e s h0 hne
    unfold handleShortcutsKeyEvent
    rw [trustShortcuts_reject_diff nameOf e s h0 hne]
  · intro nameOf i now L e s h0 hne
    unfold handlePowerKeyEvent
    rw [trustPower_reject_diff nameOf e s h0 hne]
  · intro nameOf i now L e s h0 hn
    unfold handleShortcutsKeyEvent
    rw [trustShortcuts_reject_name nameOf e s h0 hn]
  · intro nameOf i now L e s h0 hn
    unfold handlePowerKeyEvent
    rw [trustPower_reject_name nameOf e s h0 hn]
  · intro nameOf L l s h0
    exact (runEvents_trust nameOf L l s).1 h0
  · intro nameOf L l s h0
    exact (runEvents_trust nameOf L l s).2 h0

/-- Witness for C5 amended: the bound fixture rejects a same-named device
with a different id, keeps its binding across a run, and an unbound state
rejects a non-matching name. -/
theorem c5_amended_trust_monotonic_witness :
    handleShortcutsKeyEvent nmZero true 0 500 ⟨9, 250, 254, KeyAction.down⟩
      { sUnbound with trustedShortcutsDeviceId := 7 } =
      (false, { sUnbound with trustedShortcutsDeviceId := 7 }, []) ∧
    (runEvents nmZero 500 { sUnbound with trustedShortcutsDeviceId := 7 }
      [⟨0, true, ⟨9, 250, 254, KeyAction.down⟩⟩]).1.trustedShortcutsDeviceId =
      { sUnbound with trustedShortcutsDeviceId := 7 }.trustedShortcutsDeviceId ∧
    handlePowerKeyEvent nmZero true 0 500 ⟨9, 116, 26, KeyAction.down⟩ sUnbound =
      (false, sUnbound, []) :=
  ⟨c5_amended_trust_monotonic.1 nmZero true 0 500 ⟨9, 250, 254, KeyAction.down⟩
      { sUnbound with trustedShortcutsDeviceId := 7 } (by decide) (by decide),
   c5_amended_trust_monotonic.2.2.2.2.1 nmZero 500
      [⟨0, true, ⟨9, 250, 254, KeyAction.down⟩⟩]
      { sUnbound with trustedShortcutsDeviceId := 7 } (by decide),
   c5_amended_trust_monotonic.2.2.2.1 nmZero true 0 500 ⟨9, 116, 26, KeyAction.down⟩
      sUnbound (by decide) (by decide)⟩

/-- An unbound role binds on a name match. -/
theorem trustShortcuts_bind (nameOf : Int → Option String) (e : KeyEvent)
    (s : KHState) (h0 : s.trustedShortcutsDeviceId = 0)
    (hn : nameOf e.deviceId = some TRUSTED_SHORTCUTS_DEVICE_NAME) :
    trustShortcuts nameOf e s = some { s with trustedShortcutsDeviceId := e.deviceId } := by
  unfold trustShortcuts
  rw [if_pos h0, if_pos hn]

/-- An unbound power role binds on a name match. -/
theorem trustPower_bind (nameOf : Int → Option String) (e : KeyEvent)
    (s : KHState) (h0 : s.trustedPowerDeviceId = 0)
    (hn : nameOf e.deviceId = some TRUSTED_POWER_DEVICE_NAME) :
    trustPower nameOf e s = some { s with trustedPowerDeviceId := e.deviceId } := by
  unfold trustPower
  rw [if_pos h0, if_pos hn]

/-- A single event from a device untrusted for both roles is passed through
with no state change and no effects. -/
theorem handleKeyEvent_untrusted (nameOf : Int → Option String) (i : Bool)
    (now L : Nat) (e : KeyEvent) (s : KHState) (h : Untrusted nameOf s e) :
    handleKeyEvent nameOf i now L e s = (some e, s, []) := by
  obtain ⟨hn1, hn2, hd1, hd2⟩ := h
  have hs : handleShortcutsKeyEvent nameOf i now L e s = (false, s, []) := by
    by_cases h0 : s.trustedShortcutsDeviceId = 0
    · unfold handleShortcutsKeyEvent
      rw [trustShortcuts_reject_name nameOf e s h0 hn1]
    · have hne : s.trustedShortcutsDeviceId ≠ e.deviceId := by
        rcases hd1 with h | h
        · exact absurd h h0
        · exact fun hh => h hh.symm
      unfold handleShortcutsKeyEvent
      rw [trustShortcuts_reject_diff nameOf e s h0 hne]
  have hp : handlePowerKeyEvent nameOf i now L e s = (false, s, []) := by
    by_cases h0 : s.trustedPowerDeviceId = 0
    · unfold handlePowerKeyEvent
      rw [trustPower_reject_name nameOf e s h0 hn2]
    · have hne : s.trustedPowerDeviceId ≠ e.deviceId := by
        rcases hd2 with h | h
        · exact absurd h h0
        · exact fun hh => h hh.symm
      unfold handlePowerKeyEvent
      rw [trustPower_reject_diff nameOf e s h0 hne]
  unfold handleKeyEvent
  dsimp only
  rw [hs]
  dsimp only
  rw [hp]
  simp

/-- C9 confirmed.  For every sequence of events each coming from a device
untrusted for both roles in the starting state, the handler changes nothing
(in particular neither pressed flag), emits no injection and no screenshot,
and returns every event unmodified. -/
theorem c9_untrusted_passthrough (nameOf : Int → Option String) (L : Nat)
    (s : KHState) (l : List TimedEvent)
    (h : ∀ te ∈ l, Untrusted nameOf s te.event) :
    runEvents nameOf L s l = (s, [], l.map fun te => some te.event) := by
  induction l with
  | nil => rfl
  | cons te rest ih =>
    have h1 := handleKeyEvent_untrusted nameOf te.interactive te.time L te.event s
      (h te (by simp))
    unfold runEvents
    dsimp only
    rw [h1]
    dsimp only
    rw [ih fun te2 hmem => h te2 (by simp [hmem])]
    simp

/-- Witness for C9: two events from the unknown device 99 pass through the
bound idle state untouched. -/
theorem c9_untrusted_passthrough_witness :
    runEvents nmTrusted 500 sBound
      [⟨0, true, ⟨99, 250, 254, KeyAction.down⟩⟩,
       ⟨10, true, ⟨99, 250, 254, KeyAction.up⟩⟩] =
      (sBound, [],
       [some ⟨99, 250, 254, KeyAction.down⟩, some ⟨99, 250, 254, KeyAction.up⟩]) :=
  c9_untrusted_passthrough nmTrusted 500 sBound
    [⟨0, true, ⟨99, 250, 254, KeyAction.down⟩⟩,
     ⟨10, true, ⟨99, 250, 254, KeyAction.up⟩⟩]
    (by decide)

/-- C10 confirmed.  The trust binding is performed before the scan-code
comparison: the first event from a device whose name matches a role's
expected hardware name binds that role's `trustedDeviceId` to the event's
device id even when the scan code mismatches and the event is rejected — the
call returns the event unmodified, emits nothing, and the only state change
is the new binding.  (The extra disjunct keeps the other role from accepting
the same event.) -/
theorem c10_bind_on_rejected_event (nameOf : Int → Option String) (i : Bool)
    (now L : Nat) (e : KeyEvent) (s : KHState) :
    (s.trustedShortcutsDeviceId = 0 →
      nameOf e.deviceId = some TRUSTED_SHORTCUTS_DEVICE_NAME →
      e.scanCode ≠ s.shortcutsScanCode →
      (s.trustedPowerDeviceId = 0 ∨ s.trustedPowerDeviceId ≠ e.deviceId) →
      handleKeyEvent nameOf i now L e s =
        (some e, { s with trustedShortcutsDeviceId := e.deviceId }, [])) ∧
    (s.trustedPowerDeviceId = 0 →
      nameOf e.deviceId = some TRUSTED_POWER_DEVICE_NAME →
      e.scanCode ≠ s.powerScanCode →
      (s.trustedShortcutsDeviceId = 0 ∨ s.trustedShortcutsDeviceId ≠ e.deviceId) →
      handleKeyEvent nameOf i now L e s =
        (some e, { s with trustedPowerDeviceId := e.deviceId }, [])) := by
  constructor
  · intro h0 hn hsc hp
    have hs : handleShortcutsKeyEvent nameOf i now L e s =
        (false, { s with trustedShortcutsDeviceId := e.deviceId }, []) := by
      unfold handleShortcutsKeyEvent
      rw [trustShortcuts_bind nameOf e s h0 hn]
      dsimp only
      rw [if_neg hsc]
    have hpw : handlePowerKeyEvent nameOf i now L e
        { s with trustedShortcutsDeviceId := e.deviceId } =
        (false, { s with trustedShortcutsDeviceId := e.deviceId }, []) := by
      rcases hp with h1 | h1
      · unfold handlePowerKeyEvent
        rw [trustPower_reject_name nameOf e
          { s with trustedShortcutsDeviceId := e.deviceId } h1 (by rw [hn]; decide)]
      · by_cases h2 : s.trustedPowerDeviceId = 0
        · unfold handlePowerKeyEvent
          rw [trustPower_reject_name nameOf e
            { s with trustedShortcutsDeviceId := e.deviceId } h2 (by rw [hn]; decide)]
        · unfold handlePowerKeyEvent
          rw [trustPower_reject_diff nameOf e
            { s with trustedShortcutsDeviceId := e.deviceId } h2 h1]
    unfold handleKeyEvent
    dsimp only
    rw [hs]
    dsimp only
    rw [hpw]
    simp
  · intro h0 hn hsc hp
    have hs : handleShortcutsKeyEvent nameOf i now L e s = (false, s, []) := by
      rcases hp with h1 | h1
      · unfold handleShortcutsKeyEvent
        rw [trustShortcuts_reject_name nameOf e s h1 (by rw [hn]; decide)]
      · by_cases h2 : s.trustedShortcutsDeviceId = 0
        · unfold handleShortcutsKeyEvent
          rw [trustShortcuts_reject_name nameOf e s h2 (by rw [hn]; decide)]
        · unfold handleShortcutsKeyEvent
          rw [trustShortcuts_reject_diff nameOf e s h2 h1]
    have hpw : handlePowerKeyEvent nameOf i now L e s =
        (false, { s with trustedPowerDeviceId := e.deviceId }, []) := by
      unfold handlePowerKeyEvent
      rw [trustPower_bind nameOf e s h0 hn]
      dsimp only
      rw [if_neg hsc]
    unfold handleKeyEvent
    dsimp only
    rw [hs]
    dsimp only
    rw [hpw]
    simp

/-- Witness for C10: a wrong-scan-code event from the shortcuts hardware
(device 1) binds the shortcuts role of the fresh unbound state, and one from
the power hardware (device 2) binds the power role; both pass through. -/
theorem c10_bind_on_rejected_event_witness :
    handleKeyEvent nmTrusted true 0 500 ⟨1, 999, 254, KeyAction.down⟩ sUnbound =
      (some ⟨1, 999, 254, KeyAction.down⟩,
       { sUnbound with trustedShortcutsDeviceId := 1 }, []) ∧
    handleKeyEvent nmTrusted true 0 500 ⟨2, 999, 26, KeyAction.down⟩ sUnbound =
      (some ⟨2, 999, 26, KeyAction.down⟩,
       { sUnbound with trustedPowerDeviceId := 2 }, []) :=
  ⟨(c10_bind_on_rejected_event nmTrusted true 0 500 ⟨1, 999, 254, KeyAction.down⟩
      sUnbound).1 (by decide) (by decide) (by decide) (Or.inl (by decide)),
   (c10_bind_on_rejected_event nmTrusted true 0 500 ⟨2, 999, 26, KeyAction.down⟩
      sUnbound).2 (by decide) (by decide) (by decide) (Or.inl (by decide))⟩

/-- C6 confirmed.  From the idle bound state with the screen interactive,
Shortcuts down (t = 0) then Power down (t = 10) followed by silence until the
long-press deadline produces exactly one partial-screenshot request, with a
canceled up-injection for each learned key code, and ends with both pressed
flags cleared and no pending timer; waiting one further long-press interval
adds nothing.  Independently, a timer that fires when either pressed flag is
already cleared does nothing at all. -/
theorem c6_long_press_resolution (L : Nat) :
    runTimed nmTrusted L sBound
        [⟨0, true, evS KeyAction.down⟩, ⟨10, true, evP KeyAction.down⟩] (10 + L) =
      ({ sBound with shortcutsKeyCode := 254, powerKeyCode := 26 },
       [Effect.inject 254 KeyAction.down false,
        Effect.inject 254 KeyAction.up true,
        Effect.screenshot true,
        Effect.inject 254 KeyAction.up true,
        Effect.inject 26 KeyAction.up true]) ∧
    runTimed nmTrusted L sBound
        [⟨0, true, evS KeyAction.down⟩, ⟨10, true, evP KeyAction.down⟩] (10 + L + L) =
      ({ sBound with shortcutsKeyCode := 254, powerKeyCode := 26 },
       [Effect.inject 254 KeyAction.down false,
        Effect.inject 254 KeyAction.up true,
        Effect.screenshot true,
        Effect.inject 254 KeyAction.up true,
        Effect.inject 26 KeyAction.up true]) ∧
    screenshotCount true
      [Effect.inject 254 KeyAction.down false,
       Effect.inject 254 KeyAction.up true,
       Effect.screenshot true,
       Effect.inject 254 KeyAction.up true,
       Effect.inject 26 KeyAction.up true] = 1 ∧
    (∀ s : KHState, s.shortcutsKeyPressed = false ∨ s.powerKeyPressed = false →
      triggerPartialScreenshot s = (s, [])) := by
  refine ⟨?_, ?_, by decide, ?_⟩
  · simp [runTimed, fireDue, fireMany, handleKeyEvent, handleShortcutsKeyEvent,
          handlePowerKeyEvent, trustShortcuts, trustPower, shortcutsAction, powerAction,
          triggerPartialScreenshot, nmTrusted, sBound, evS, evP, emptyState,
          TRUSTED_SHORTCUTS_DEVICE_NAME, TRUSTED_POWER_DEVICE_NAME]
  · simp [runTimed, fireDue, fireMany, handleKeyEvent, handleShortcutsKeyEvent,
          handlePowerKeyEvent, trustShortcuts, trustPower, shortcutsAction, powerAction,
          triggerPartialScreenshot, nmTrusted, sBound, evS, evP, emptyState,
          TRUSTED_SHORTCUTS_DEVICE_NAME, TRUSTED_POWER_DEVICE_NAME]
  · intro s hflag
    unfold triggerPartialScreenshot
    rcases hflag with h | h <;> simp [h]

/-- Witness for C6: the concrete long-press run at the Android default
timeout of 500 ms, and a timer fire against the idle state is inert. -/
theorem c6_long_press_resolution_witness :
    screenshotCount true
      (runTimed nmTrusted 500 sBound
        [⟨0, true, evS KeyAction.down⟩, ⟨10, true, evP KeyAction.down⟩] 510).2 = 1 ∧
    triggerPartialScreenshot sBound = (sBound, []) :=
  ⟨by rw [(c6_long_press_resolution 500).1]; decide,
   (c6_long_press_resolution 500).2.2.2 sBound (Or.inl rfl)⟩

set_option maxHeartbeats 1600000 in
/-- C7 confirmed.  From the idle bound state with the screen interactive,
Shortcuts down (t = 0), Power down (t = 5), Power up (t = 10), all inside the
long-press interval, produce exactly one full-screen screenshot request and
never a partial one — the up-edge removes the armed timer, so no matter how
long the run is observed (`tEnd` arbitrary) nothing further fires — and both
pressed flags end cleared. -/
theorem c7_quick_combo_resolution (L tEnd : Nat) (h : 10 < 5 + L) :
    runTimed nmTrusted L sBound
        [⟨0, true, evS KeyAction.down⟩, ⟨5, true, evP KeyAction.down⟩,
         ⟨10, true, evP KeyAction.up⟩] tEnd =
      ({ sBound with shortcutsKeyCode := 254, powerKeyCode := 26 },
       [Effect.inject 254 KeyAction.down false,
        Effect.inject 254 KeyAction.up true,
        Effect.screenshot false]) ∧
    screenshotCount false
      [Effect.inject 254 KeyAction.down false,
       Effect.inject 254 KeyAction.up true,
       Effect.screenshot false] = 1 ∧
    screenshotCount true
      [Effect.inject 254 KeyAction.down false,
       Effect.inject 254 KeyAction.up true,
       Effect.screenshot false] = 0 := by
  have h2 : ¬ (5 + L ≤ 10) := Nat.not_le.mpr h
  refine ⟨?_, by decide, by decide⟩
  simp [runTimed, fireDue, fireMany, handleKeyEvent, handleShortcutsKeyEvent,
        handlePowerKeyEvent, trustShortcuts, trustPower, shortcutsAction, powerAction,
        triggerPartialScreenshot, nmTrusted, sBound, evS, evP, emptyState,
        TRUSTED_SHORTCUTS_DEVICE_NAME, TRUSTED_POWER_DEVICE_NAME, h2]

/-- Witness for C7 at the Android default timeout of 500 ms, observed far
beyond the long-press deadline. -/
theorem c7_quick_combo_resolution_witness :
    runTimed nmTrusted 500 sBound
        [⟨0, true, evS KeyAction.down⟩, ⟨5, true, evP KeyAction.down⟩,
         ⟨10, true, evP KeyAction.up⟩] 100000 =
      ({ sBound with shortcutsKeyCode := 254, powerKeyCode := 26 },
       [Effect.inject 254 KeyAction.down false,
        Effect.inject 254 KeyAction.up true,
        Effect.screenshot false]) :=
  (c7_quick_combo_resolution 500 100000 (by decide)).1

end SmartisanKeyHandler
